import Mathlib

/-!
Shallow embedding of the computational core of the TradingStrategy repository:
`src/strategyLogic.ts` (moving averages, RSI, SSL Channel, Trend Fusion,
signal combinator) and `src/workers/dataProcessor.worker.ts` (time-range
window selection by binary search).

Conventions of the embedding:

* JavaScript numbers are modelled as exact rationals (`ℚ`); timestamps
  (`Date` values) as integer epoch milliseconds (`ℤ`).
* The single reachable IEEE special value in the core is the NaN produced by
  the division `avgGain / avgLoss` in `calculateRSI` when both averages are
  zero (constant price input).  `calculateRSI` therefore returns `Option ℚ`,
  `none` standing for NaN, and `rsiFinal` spells out the IEEE evaluation of
  `100 - 100/(1 + avgGain/avgLoss)` case by case.  Comparisons against a
  possibly-NaN value are false whenever the value is NaN, exactly as in
  JavaScript; see `jsLe`, `jsGe`, `jsLt`, `jsGt`.
* `x || default` applied to an optional numeric setting yields the default
  both when the setting is absent (`undefined`) and when it equals `0`
  (both are falsy in JavaScript); see `jsOrNat`, `jsOrQ`.
* `arr.slice(-n)` (for `n ≥ 1`) is `takeLast n`, `arr.slice(0, -1)` is
  `List.dropLast`, and `arr.slice(-(n+1), -1)` is
  `(takeLast (n+1) ·).dropLast`.
-/

/-- Last `n` elements of a list: JavaScript `arr.slice(-n)` for `n ≥ 1`
(every call site below resolves its period to a positive value). -/
def takeLast {α : Type*} (n : ℕ) (l : List α) : List α :=
  l.drop (l.length - n)

/-- JavaScript `x || d` for an optional integer setting: absent (`undefined`)
and `0` are both falsy and yield the default. -/
def jsOrNat (x : Option ℕ) (d : ℕ) : ℕ :=
  match x with
  | none => d
  | some v => if v = 0 then d else v

/-- JavaScript `x || d` for an optional numeric setting: absent and `0` are
both falsy and yield the default. -/
def jsOrQ (x : Option ℚ) (d : ℚ) : ℚ :=
  match x with
  | none => d
  | some v => if v = 0 then d else v

/-- JavaScript `x <= y` where `x` may be NaN (modelled `none`): false on NaN. -/
def jsLe (x : Option ℚ) (y : ℚ) : Bool :=
  match x with
  | none => false
  | some v => v ≤ y

/-- JavaScript `x >= y` where `x` may be NaN: false on NaN. -/
def jsGe (x : Option ℚ) (y : ℚ) : Bool :=
  match x with
  | none => false
  | some v => y ≤ v

/-- JavaScript `x < y` where `x` may be NaN: false on NaN. -/
def jsLt (x : Option ℚ) (y : ℚ) : Bool :=
  match x with
  | none => false
  | some v => v < y

/-- JavaScript `x > y` where `x` may be NaN: false on NaN. -/
def jsGt (x : Option ℚ) (y : ℚ) : Bool :=
  match x with
  | none => false
  | some v => y < v

/-- interface PriceData (strategyLogic.ts lines 4-10).  The `open` field is
renamed `openPrice` because `open` is a Lean keyword. -/
structure PriceData where
  openPrice : ℚ
  high : ℚ
  low : ℚ
  close : ℚ
  timestamp : ℤ
deriving DecidableEq, Repr

/-- Placeholder bar used to totalise JavaScript index accesses; every access
below is guarded so the placeholder is never read on reachable paths. -/
def defaultBar : PriceData :=
  { openPrice := 0, high := 0, low := 0, close := 0, timestamp := 0 }

/-- Last bar of a series: JavaScript `arr[arr.length - 1]`. -/
def lastBar (l : List PriceData) : PriceData :=
  l.getD (l.length - 1) defaultBar

/-- Signal alternatives 'BUY' | 'SELL' | 'NEUTRAL'. -/
inductive SignalType
  | BUY
  | SELL
  | NEUTRAL
deriving DecidableEq, Repr

/-- Trend alternatives 'GREEN' | 'RED' | 'NEUTRAL'. -/
inductive TrendDirection
  | GREEN
  | RED
  | NEUTRAL
deriving DecidableEq, Repr

/-- RSI bias alternatives 'BULLISH' | 'BEARISH' | 'NEUTRAL'. -/
inductive RsiBias
  | BULLISH
  | BEARISH
  | NEUTRAL
deriving DecidableEq, Repr

/-- Moving-average kinds 'SMA' | 'EMA'. -/
inductive MAType
  | SMA
  | EMA
deriving DecidableEq, Repr

/-- interface TradingSignal (lines 12-16). -/
structure TradingSignal where
  type : SignalType
  timestamp : ℤ
  price : ℚ
deriving DecidableEq, Repr

/-- interface SSLChannelData (lines 18-26). -/
structure SSLChannelData where
  sslUp : ℚ
  sslDown : ℚ
  hlv : ℤ
  signal : SignalType
  color : String
  buySignal : Bool
  sellSignal : Bool
deriving DecidableEq, Repr

/-- interface TrendFusionData (lines 28-38).  `momentum` and `rsiValue` are
`Option ℚ` because `calculateRSI` can produce NaN (see module comment). -/
structure TrendFusionData where
  trendDirection : TrendDirection
  shortEMA : ℚ
  longEMA : ℚ
  momentum : Option ℚ
  rsiValue : Option ℚ
  rsiBias : RsiBias
  color : String
  rsiBiasLine : ℚ
  rsiBiasColor : String
deriving DecidableEq, Repr

/-- Optional settings record of calculateSSLChannel (lines 65-68). -/
structure SSLSettings where
  maPeriod : Option ℕ
  maType : Option MAType
deriving DecidableEq, Repr

/-- Optional settings record of calculateTrendFusion (lines 205-211). -/
structure TrendFusionSettings where
  shortEMAPeriod : Option ℕ
  longEMAPeriod : Option ℕ
  rsiPeriod : Option ℕ
  topLevel : Option ℚ
  bottomLevel : Option ℚ
deriving DecidableEq, Repr

/-- calculateMA (strategyLogic.ts lines 41-59): sentinel 0 on insufficient
data; SMA is the mean of the last `length` elements; EMA is seeded with
`source[0]` and folds the recurrence over the entire supplied sequence with
multiplier `2/(length+1)`.  (The `default` arm of the source `switch` is
unreachable: the TypeScript type has exactly the kinds SMA and EMA.) -/
def calculateMA (source : List ℚ) (length : ℕ) (type : MAType) : ℚ :=
  if source.length < length then 0
  else
    match type with
    | .SMA => (takeLast length source).foldl (· + ·) 0 / (length : ℚ)
    | .EMA =>
      let multiplier : ℚ := 2 / ((length : ℚ) + 1)
      source.tail.foldl (fun ema value => value * multiplier + ema * (1 - multiplier))
        (source.headD 0)

/-- Resolved `maPeriod` of calculateSSLChannel (line 70):
`settings?.maPeriod || 200`. -/
def sslPeriod (settings : Option SSLSettings) : ℕ :=
  jsOrNat (settings.bind (·.maPeriod)) 200

/-- Resolved `maType` of calculateSSLChannel (line 71):
`settings?.maType || 'SMA'` (a non-empty string is always truthy). -/
def sslMaType (settings : Option SSLSettings) : MAType :=
  (settings.bind (·.maType)).getD .SMA

/-- `recentData` of calculateSSLChannel (line 85): the last `maPeriod` bars. -/
def sslRecent (priceData : List PriceData) (settings : Option SSLSettings) : List PriceData :=
  takeLast (sslPeriod settings) priceData

/-- `ma1` of calculateSSLChannel (lines 89, 92): moving average of the highs
of `recentData`. -/
def sslMa1 (priceData : List PriceData) (settings : Option SSLSettings) : ℚ :=
  calculateMA ((sslRecent priceData settings).map (·.high)) (sslPeriod settings)
    (sslMaType settings)

/-- `ma2` of calculateSSLChannel (lines 90, 93): moving average of the lows
of `recentData`. -/
def sslMa2 (priceData : List PriceData) (settings : Option SSLSettings) : ℚ :=
  calculateMA ((sslRecent priceData settings).map (·.low)) (sslPeriod settings)
    (sslMaType settings)

/-- The `hlv` determination of calculateSSLChannel (lines 96-120): compare
the last bar of `recentData` against the channel; on ambiguity fall back to
the same two comparisons on the second-to-last bar (when it exists), else 0. -/
def sslHlv (recentData : List PriceData) (wicks : Bool) (ma1 ma2 : ℚ) : ℤ :=
  let lastB := recentData.getD (recentData.length - 1) defaultBar
  let currentPrice := lastB.close
  let priceToCompare := if wicks then lastB.high else currentPrice
  let lowPriceToCompare := if wicks then lastB.low else currentPrice
  if priceToCompare > ma1 then 1
  else if lowPriceToCompare < ma2 then -1
  else if 1 < recentData.length then
    let prevB := recentData.getD (recentData.length - 2) defaultBar
    let prevPrice := if wicks then prevB.high else prevB.close
    let prevLowPrice := if wicks then prevB.low else prevB.close
    if prevPrice > ma1 then 1
    else if prevLowPrice < ma2 then -1
    else 0
  else 0

/-- The `hlv` field that `calculateSSLChannel` assigns on an arbitrary window
(0 on insufficient data, lines 73-83, else lines 96-120).  The source
computes the previous state by a full recursive call
`calculateSSLChannel(prevData, wicks, settings)` and reads only its `.hlv`
field, which never depends on the recursion; the embedding therefore uses
this function for the recursive occurrence.  The lemma
`calculateSSLChannel_hlv` states that it coincides with the `hlv` field of
the full result, so the observable behaviour is identical. -/
def sslHlvOf (priceData : List PriceData) (wicks : Bool) (settings : Option SSLSettings) : ℤ :=
  if priceData.length < sslPeriod settings then 0
  else
    sslHlv (sslRecent priceData settings) wicks (sslMa1 priceData settings)
      (sslMa2 priceData settings)

/-- calculateSSLChannel (strategyLogic.ts lines 62-164).  The crossover
detection (lines 140-153) recomputes the previous state on
`priceData.slice(-(maPeriod + 1), -1)`; only the `hlv` field of that
recursive result is read (see `sslHlvOf`).  The source guards the sell check
by `else if`; the two conditions are mutually exclusive (`hlv` cannot be both
1 and -1), and the `!buyCond` factor keeps the `else if` structure. -/
def calculateSSLChannel (priceData : List PriceData) (wicks : Bool)
    (settings : Option SSLSettings) : SSLChannelData :=
  let maPeriod := sslPeriod settings
  if priceData.length < maPeriod then
    { sslUp := 0, sslDown := 0, hlv := 0, signal := .NEUTRAL, color := "#6B7280",
      buySignal := false, sellSignal := false }
  else
    let recentData := sslRecent priceData settings
    let ma1 := sslMa1 priceData settings
    let ma2 := sslMa2 priceData settings
    let hlv := sslHlv recentData wicks ma1 ma2
    let sslUp := if hlv < 0 then ma2 else ma1
    let sslDown := if hlv < 0 then ma1 else ma2
    let signal : SignalType := if hlv = 1 then .BUY else if hlv = -1 then .SELL else .NEUTRAL
    let signalColor := if hlv = 1 then "#EAB308" else if hlv = -1 then "#EAB308" else "#6B7280"
    if 1 < recentData.length then
      let prevData := (takeLast (maPeriod + 1) priceData).dropLast
      let prevHlv := sslHlvOf prevData wicks settings
      let buyCond := hlv == 1 && prevHlv == -1
      { sslUp := sslUp, sslDown := sslDown, hlv := hlv, signal := signal, color := signalColor,
        buySignal := buyCond, sellSignal := !buyCond && (hlv == -1 && prevHlv == 1) }
    else
      { sslUp := sslUp, sslDown := sslDown, hlv := hlv, signal := signal, color := signalColor,
        buySignal := false, sellSignal := false }

/-- calculateSSLChannel with the crossover recursion exactly as written in
the source (lines 140-153): the previous state is the `hlv` field of a full
recursive evaluation on `priceData.slice(-(maPeriod + 1), -1)`.  The theorem
`calculateSSLChannelRec_eq` proves this literal transcription equal to
`calculateSSLChannel`, which computes the same field without recursion. -/
def calculateSSLChannelRec (priceData : List PriceData) (wicks : Bool)
    (settings : Option SSLSettings) : SSLChannelData :=
  let maPeriod := sslPeriod settings
  if priceData.length < maPeriod then
    { sslUp := 0, sslDown := 0, hlv := 0, signal := .NEUTRAL, color := "#6B7280",
      buySignal := false, sellSignal := false }
  else
    let recentData := sslRecent priceData settings
    let ma1 := sslMa1 priceData settings
    let ma2 := sslMa2 priceData settings
    let hlv := sslHlv recentData wicks ma1 ma2
    let sslUp := if hlv < 0 then ma2 else ma1
    let sslDown := if hlv < 0 then ma1 else ma2
    let signal : SignalType := if hlv = 1 then .BUY else if hlv = -1 then .SELL else .NEUTRAL
    let signalColor := if hlv = 1 then "#EAB308" else if hlv = -1 then "#EAB308" else "#6B7280"
    if h2 : 1 < recentData.length then
      let prevData := (takeLast (maPeriod + 1) priceData).dropLast
      let prevSSL := calculateSSLChannelRec prevData wicks settings
      let buyCond := hlv == 1 && prevSSL.hlv == -1
      { sslUp := sslUp, sslDown := sslDown, hlv := hlv, signal := signal, color := signalColor,
        buySignal := buyCond, sellSignal := !buyCond && (hlv == -1 && prevSSL.hlv == 1) }
    else
      { sslUp := sslUp, sslDown := sslDown, hlv := hlv, signal := signal, color := signalColor,
        buySignal := false, sellSignal := false }
termination_by priceData.length
decreasing_by
  have hp : 0 < sslPeriod settings := by
    unfold sslPeriod jsOrNat
    cases settings.bind (fun st => st.maPeriod) with
    | none => dsimp only; omega
    | some v => dsimp only; split <;> omega
  simp only [takeLast, List.length_dropLast, List.length_drop]
  omega

/-- Price deltas `prices[i] - prices[i-1]` for `i = 1 .. prices.length - 1`. -/
def rsiChanges (prices : List ℚ) : List ℚ :=
  (prices.zip prices.tail).map fun p => p.2 - p.1

/-- Initial accumulation of calculateRSI (lines 174-181): sum positive deltas
into gains, absolute non-positive deltas into losses. -/
def rsiInitStep (acc : ℚ × ℚ) (change : ℚ) : ℚ × ℚ :=
  if change > 0 then (acc.1 + change, acc.2) else (acc.1, acc.2 + |change|)

/-- Wilder smoothing step of calculateRSI (lines 187-196). -/
def rsiSmoothStep (length : ℕ) (acc : ℚ × ℚ) (change : ℚ) : ℚ × ℚ :=
  if change > 0 then
    ((acc.1 * ((length : ℚ) - 1) + change) / (length : ℚ),
     (acc.2 * ((length : ℚ) - 1)) / (length : ℚ))
  else
    ((acc.1 * ((length : ℚ) - 1)) / (length : ℚ),
     (acc.2 * ((length : ℚ) - 1) + |change|) / (length : ℚ))

/-- Final `(avgGain, avgLoss)` of calculateRSI: initial averages over the
first `length` deltas (lines 174-184), then Wilder smoothing over the
remaining deltas (lines 187-196). -/
def rsiAverages (prices : List ℚ) (length : ℕ) : ℚ × ℚ :=
  let changes := rsiChanges prices
  let initial := (changes.take length).foldl rsiInitStep (0, 0)
  (changes.drop length).foldl (rsiSmoothStep length)
    (initial.1 / (length : ℚ), initial.2 / (length : ℚ))

/-- The return expression of calculateRSI (lines 198-199),
`100 - 100/(1 + avgGain/avgLoss)`, evaluated under IEEE-754 semantics:
with `avgLoss = 0` and `avgGain > 0` the ratio is `+Infinity` and the whole
expression collapses to `100` (likewise `-Infinity` for `avgGain < 0`,
unreachable); with `avgLoss = avgGain = 0` the ratio is `0/0 = NaN`, which
propagates (`none`).  With `avgLoss ≠ 0` the arithmetic is exact.  (On
reachable inputs `avgGain ≥ 0 ≤ avgLoss`, so the remaining IEEE corner
`1 + avgGain/avgLoss = 0` cannot occur.) -/
def rsiFinal (avgGain avgLoss : ℚ) : Option ℚ :=
  if avgLoss = 0 then
    if avgGain = 0 then none else some 100
  else some (100 - 100 / (1 + avgGain / avgLoss))

/-- calculateRSI (strategyLogic.ts lines 167-200): sentinel 50 on
insufficient data, else Wilder-smoothed RSI; `none` models the NaN arising
from `0/0` on constant prices. -/
def calculateRSI (prices : List ℚ) (length : ℕ) : Option ℚ :=
  if prices.length < length + 1 then some 50
  else rsiFinal (rsiAverages prices length).1 (rsiAverages prices length).2

/-- Resolved `shortPeriod` of calculateTrendFusion (line 213). -/
def tfShortPeriod (settings : Option TrendFusionSettings) : ℕ :=
  jsOrNat (settings.bind (·.shortEMAPeriod)) 14

/-- Resolved `longPeriod` of calculateTrendFusion (line 214). -/
def tfLongPeriod (settings : Option TrendFusionSettings) : ℕ :=
  jsOrNat (settings.bind (·.longEMAPeriod)) 50

/-- Resolved `rsiLength` of calculateTrendFusion (line 215). -/
def tfRsiLength (settings : Option TrendFusionSettings) : ℕ :=
  jsOrNat (settings.bind (·.rsiPeriod)) 14

/-- Resolved `topLevel` of calculateTrendFusion (line 216). -/
def tfTopLevel (settings : Option TrendFusionSettings) : ℚ :=
  jsOrQ (settings.bind (·.topLevel)) 60

/-- Resolved `bottomLevel` of calculateTrendFusion (line 217). -/
def tfBottomLevel (settings : Option TrendFusionSettings) : ℚ :=
  jsOrQ (settings.bind (·.bottomLevel)) 40

/-- calculateTrendFusion (strategyLogic.ts lines 203-298).  EMAs over all
closes, momentum and RSI from `calculateRSI`, RSI-bias crossover against the
previous window (closes without the last element), trend direction from the
EMA comparison.  NaN-valued RSI comparisons are false (`jsLe` etc.). -/
def calculateTrendFusion (priceData : List PriceData)
    (settings : Option TrendFusionSettings) : TrendFusionData :=
  let shortPeriod := tfShortPeriod settings
  let longPeriod := tfLongPeriod settings
  let rsiLength := tfRsiLength settings
  let topLevel := tfTopLevel settings
  let bottomLevel := tfBottomLevel settings
  if priceData.length < max shortPeriod (max longPeriod rsiLength) then
    { trendDirection := .NEUTRAL, shortEMA := 0, longEMA := 0, momentum := some 0,
      rsiValue := some 50, rsiBias := .NEUTRAL, color := "#6B7280",
      rsiBiasLine := 50, rsiBiasColor := "#6B7280" }
  else
    let closePrices := priceData.map (·.close)
    let shortEMA := calculateMA closePrices shortPeriod .EMA
    let longEMA := calculateMA closePrices longPeriod .EMA
    let momentum := (calculateRSI closePrices rsiLength).map (fun r => r - 50)
    let rsiValue := calculateRSI closePrices rsiLength
    let bias :=
      if 1 < priceData.length then
        let prevRsi := calculateRSI closePrices.dropLast rsiLength
        if jsLe prevRsi topLevel && jsGt rsiValue topLevel then
          (RsiBias.BULLISH, bottomLevel, "#EC4899")
        else if jsGe prevRsi bottomLevel && jsLt rsiValue bottomLevel then
          (RsiBias.BEARISH, topLevel, "#EC4899")
        else (RsiBias.NEUTRAL, (50 : ℚ), "#6B7280")
      else (RsiBias.NEUTRAL, (50 : ℚ), "#6B7280")
    let trend :=
      if shortEMA > longEMA then
        (TrendDirection.GREEN, if jsGt momentum 0 then "#10B981" else "#10B981")
      else if shortEMA < longEMA then
        (TrendDirection.RED, if jsGt momentum 0 then "#991B1B" else "#EF4444")
      else (TrendDirection.NEUTRAL, "#6B7280")
    { trendDirection := trend.1, shortEMA := shortEMA, longEMA := longEMA,
      momentum := momentum, rsiValue := rsiValue, rsiBias := bias.1, color := trend.2,
      rsiBiasLine := bias.2.1, rsiBiasColor := bias.2.2 }

/-- calculateTradingSignal (strategyLogic.ts lines 301-344).  The source
stamps the insufficient-data result with `new Date()`; the current clock is
passed as the explicit parameter `now`. -/
def calculateTradingSignal (priceData : List PriceData) (now : ℤ) : TradingSignal :=
  if priceData.length < 200 then
    { type := .NEUTRAL, timestamp := now,
      price := if 0 < priceData.length then (lastBar priceData).close else 0 }
  else
    let currentPrice := (lastBar priceData).close
    let sslChannel := calculateSSLChannel priceData false none
    let trendFusion := calculateTrendFusion priceData none
    let signalType : SignalType :=
      if sslChannel.signal = .BUY ∧ trendFusion.trendDirection = .GREEN then .BUY
      else if sslChannel.signal = .SELL ∧ trendFusion.trendDirection = .RED then .SELL
      else .NEUTRAL
    { type := signalType, timestamp := (lastBar priceData).timestamp, price := currentPrice }

/-- Range tokens of processTimeRangeData (dataProcessor.worker.ts lines
95-148); `other` stands for any string not among the named cases and selects
the `default` arm (one day). -/
inductive TimeRange
  | oneHour
  | oneDay
  | fiveDays
  | oneMonth
  | threeMonths
  | sixMonths
  | ytd
  | oneYear
  | fiveYears
  | all
  | other
deriving DecidableEq, Repr

/-- Year of a day count since the Unix epoch in the proleptic Gregorian
calendar (the calendar ECMAScript `Date.prototype.getUTCFullYear` uses),
via the standard civil-from-days conversion. -/
def civilYearOfDay (z : ℤ) : ℤ :=
  let z' := z + 719468
  let era := Int.fdiv z' 146097
  let doe := z' - era * 146097
  let yoe := (doe - doe / 1460 + doe / 36524 - doe / 146096) / 365
  let y := yoe + era * 400
  let doy := doe - (365 * yoe + yoe / 4 - yoe / 100)
  let mp := (5 * doy + 2) / 153
  let m := if mp < 10 then mp + 3 else mp - 9
  if m ≤ 2 then y + 1 else y

/-- Day count since the Unix epoch of January 1 of year `y` in the proleptic
Gregorian calendar (the standard days-from-civil conversion at month 1,
day 1, i.e. ECMAScript `Date.UTC(y, 0, 1) / 86400000`). -/
def epochDayOfJan1 (y : ℤ) : ℤ :=
  let y' := y - 1
  let era := Int.fdiv y' 400
  let yoe := y' - era * 400
  let doe := yoe * 365 + yoe / 4 - yoe / 100 + 306
  era * 146097 + doe - 719468

/-- Epoch milliseconds of `Date.UTC(getUTCFullYear(ms), 0, 1)`: midnight UTC,
January 1, of the year containing `ms` (worker line 127). -/
def utcYearStartMs (ms : ℤ) : ℤ :=
  epochDayOfJan1 (civilYearOfDay (Int.fdiv ms 86400000)) * 86400000

/-- Loop of findStartIndex (worker lines 74-83).  `mid` is
`Math.floor((left + right) / 2)`; integer `/` on `ℤ` is floor division for
the positive divisor 2, so the rounding agrees with JavaScript for every
argument. -/
def findStartIndexGo (data : List PriceData) (targetDate : ℤ) (left right : ℤ) : ℤ :=
  if left ≤ right then
    let mid := (left + right) / 2
    if targetDate ≤ (data.getD mid.toNat defaultBar).timestamp then
      findStartIndexGo data targetDate left (mid - 1)
    else
      findStartIndexGo data targetDate (mid + 1) right
  else left
termination_by (right + 1 - left).toNat
decreasing_by
  · omega
  · omega

/-- findStartIndex (dataProcessor.worker.ts lines 70-86): lower-bound binary
search for the first bar whose timestamp is at least `targetDate`. -/
def findStartIndex (data : List PriceData) (targetDate : ℤ) : ℤ :=
  findStartIndexGo data targetDate 0 ((data.length : ℤ) - 1)

/-- processTimeRangeData (dataProcessor.worker.ts lines 89-152).  Each named
range computes its cutoff from the last bar's timestamp, finds the first
index with timestamp at least the cutoff by binary search, and takes the
suffix from there (`data.slice(startIndex)`; `findStartIndex` always returns
a value in `[0, data.length]`, so `Int.toNat` is exact). -/
def processTimeRangeData (data : List PriceData) (timeRange : TimeRange) : List PriceData :=
  if data.length = 0 then []
  else
    let dataEnd := (lastBar data).timestamp
    match timeRange with
    | .oneHour => data.drop (findStartIndex data (dataEnd - 60 * 60 * 1000)).toNat
    | .oneDay => data.drop (findStartIndex data (dataEnd - 24 * 60 * 60 * 1000)).toNat
    | .fiveDays => data.drop (findStartIndex data (dataEnd - 5 * 24 * 60 * 60 * 1000)).toNat
    | .oneMonth => data.drop (findStartIndex data (dataEnd - 30 * 24 * 60 * 60 * 1000)).toNat
    | .threeMonths => data.drop (findStartIndex data (dataEnd - 90 * 24 * 60 * 60 * 1000)).toNat
    | .sixMonths => data.drop (findStartIndex data (dataEnd - 180 * 24 * 60 * 60 * 1000)).toNat
    | .ytd => data.drop (findStartIndex data (utcYearStartMs dataEnd)).toNat
    | .oneYear => data.drop (findStartIndex data (dataEnd - 365 * 24 * 60 * 60 * 1000)).toNat
    | .fiveYears => data.drop (findStartIndex data (dataEnd - 5 * 365 * 24 * 60 * 60 * 1000)).toNat
    | .all => data
    | .other => data.drop (findStartIndex data (dataEnd - 24 * 60 * 60 * 1000)).toNat

/-- Cutoff timestamp of each range token, as computed by the corresponding
arm of processTimeRangeData from the latest bar timestamp `dataEnd` (for the
token `all` no cutoff is used; the value here is the latest timestamp itself
and is irrelevant to the theorems, which treat `all` separately). -/
def cutoffFor (timeRange : TimeRange) (dataEnd : ℤ) : ℤ :=
  match timeRange with
  | .oneHour => dataEnd - 60 * 60 * 1000
  | .oneDay => dataEnd - 24 * 60 * 60 * 1000
  | .fiveDays => dataEnd - 5 * 24 * 60 * 60 * 1000
  | .oneMonth => dataEnd - 30 * 24 * 60 * 60 * 1000
  | .threeMonths => dataEnd - 90 * 24 * 60 * 60 * 1000
  | .sixMonths => dataEnd - 180 * 24 * 60 * 60 * 1000
  | .ytd => utcYearStartMs dataEnd
  | .oneYear => dataEnd - 365 * 24 * 60 * 60 * 1000
  | .fiveYears => dataEnd - 5 * 365 * 24 * 60 * 60 * 1000
  | .all => dataEnd
  | .other => dataEnd - 24 * 60 * 60 * 1000

/-- A 200-bar strictly rising test window: bar `i` has all prices `i` and
timestamp `i`. -/
def risingWindow200 : List PriceData :=
  (List.range 200).map fun (i : ℕ) =>
    { openPrice := (i : ℚ), high := (i : ℚ), low := (i : ℚ), close := (i : ℚ),
      timestamp := (i : ℤ) }

theorem takeLast_length {α : Type*} (n : ℕ) (l : List α) :
    (takeLast n l).length = min n l.length := by
  unfold takeLast
  rw [List.length_drop]
  omega

theorem takeLast_of_le {α : Type*} {n : ℕ} {l : List α} (h : l.length ≤ n) :
    takeLast n l = l := by
  unfold takeLast
  rw [Nat.sub_eq_zero_of_le h, List.drop_zero]

theorem jsOrNat_pos (x : Option ℕ) (d : ℕ) (hd : 0 < d) : 0 < jsOrNat x d := by
  cases x with
  | none => simpa [jsOrNat] using hd
  | some v =>
    by_cases hv : v = 0 <;> simp [jsOrNat, hv] <;> omega

theorem sslPeriod_pos (s : Option SSLSettings) : 0 < sslPeriod s :=
  jsOrNat_pos _ 200 (by omega)

theorem sslRecent_length {w : List PriceData} {s : Option SSLSettings}
    (h : sslPeriod s ≤ w.length) : (sslRecent w s).length = sslPeriod s := by
  simp [sslRecent, takeLast_length]
  omega

/-- The `hlv` field of the full SSL result agrees with `sslHlvOf`. -/
theorem calculateSSLChannel_hlv (w : List PriceData) (wicks : Bool)
    (s : Option SSLSettings) :
    (calculateSSLChannel w wicks s).hlv = sslHlvOf w wicks s := by
  unfold calculateSSLChannel sslHlvOf
  dsimp only
  by_cases h1 : w.length < sslPeriod s
  · simp only [if_pos h1]
  · simp only [if_neg h1]
    by_cases h2 : 1 < (sslRecent w s).length
    · simp only [if_pos h2]
    · simp only [if_neg h2]

theorem calculateSSLChannel_of_short {w : List PriceData} {wicks : Bool}
    {s : Option SSLSettings} (h : w.length < sslPeriod s) :
    calculateSSLChannel w wicks s =
      { sslUp := 0, sslDown := 0, hlv := 0, signal := .NEUTRAL, color := "#6B7280",
        buySignal := false, sellSignal := false } := by
  unfold calculateSSLChannel
  exact if_pos h

/-- C7: insufficient data never raises and always yields the fixed sentinels:
`calculateMA` returns 0 on a sequence shorter than the period, `calculateRSI`
returns 50 on fewer than `length + 1` prices, `calculateSSLChannel` on a
window shorter than its (resolved) period returns the fully-neutral record,
and `calculateTrendFusion` on a window shorter than
`max(shortPeriod, longPeriod, rsiLength)` returns its neutral sentinel
record. -/
theorem insufficient_data_sentinels :
    (∀ (source : List ℚ) (length : ℕ) (type : MAType),
        source.length < length → calculateMA source length type = 0) ∧
    (∀ (prices : List ℚ) (length : ℕ),
        prices.length < length + 1 → calculateRSI prices length = some 50) ∧
    (∀ (w : List PriceData) (wicks : Bool) (s : Option SSLSettings),
        w.length < sslPeriod s →
        calculateSSLChannel w wicks s =
          { sslUp := 0, sslDown := 0, hlv := 0, signal := .NEUTRAL, color := "#6B7280",
            buySignal := false, sellSignal := false }) ∧
    (∀ (w : List PriceData) (s : Option TrendFusionSettings),
        w.length < max (tfShortPeriod s) (max (tfLongPeriod s) (tfRsiLength s)) →
        calculateTrendFusion w s =
          { trendDirection := .NEUTRAL, shortEMA := 0, longEMA := 0, momentum := some 0,
            rsiValue := some 50, rsiBias := .NEUTRAL, color := "#6B7280",
            rsiBiasLine := 50, rsiBiasColor := "#6B7280" }) := by
  refine ⟨?_, ?_, ?_, ?_⟩
  · intro source length type h
    unfold calculateMA
    exact if_pos h
  · intro prices length h
    unfold calculateRSI
    exact if_pos h
  · intro w wicks s h
    exact calculateSSLChannel_of_short h
  · intro w s h
    unfold calculateTrendFusion
    exact if_pos h

/-- Witness for C7 at concrete inputs. -/
theorem insufficient_data_sentinels_witness :
    calculateMA [1] 2 .SMA = 0 ∧
    calculateRSI [1] 1 = some 50 ∧
    calculateSSLChannel [] false none =
      { sslUp := 0, sslDown := 0, hlv := 0, signal := .NEUTRAL, color := "#6B7280",
        buySignal := false, sellSignal := false } ∧
    calculateTrendFusion [] none =
      { trendDirection := .NEUTRAL, shortEMA := 0, longEMA := 0, momentum := some 0,
        rsiValue := some 50, rsiBias := .NEUTRAL, color := "#6B7280",
        rsiBiasLine := 50, rsiBiasColor := "#6B7280" } :=
  ⟨insufficient_data_sentinels.1 [1] 2 .SMA (by decide),
   insufficient_data_sentinels.2.1 [1] 1 (by decide),
   insufficient_data_sentinels.2.2.1 [] false none (by decide),
   insufficient_data_sentinels.2.2.2 [] none (by decide)⟩

/-- C1: on a window of at least 200 bars the combined signal is BUY iff the
SSLChannel signal (computed with defaults, as the combinator does) is BUY and
the TrendFusion trend direction is GREEN, SELL iff the SSLChannel signal is
SELL and the trend direction is RED, NEUTRAL otherwise; the returned
timestamp is the last bar's timestamp and the price is the last bar's
close. -/
theorem trading_signal_confluence (w : List PriceData) (now : ℤ) (h : 200 ≤ w.length) :
    ((calculateTradingSignal w now).type = .BUY ↔
      (calculateSSLChannel w false none).signal = .BUY ∧
      (calculateTrendFusion w none).trendDirection = .GREEN) ∧
    ((calculateTradingSignal w now).type = .SELL ↔
      (calculateSSLChannel w false none).signal = .SELL ∧
      (calculateTrendFusion w none).trendDirection = .RED) ∧
    (¬((calculateSSLChannel w false none).signal = .BUY ∧
        (calculateTrendFusion w none).trendDirection = .GREEN) →
      ¬((calculateSSLChannel w false none).signal = .SELL ∧
        (calculateTrendFusion w none).trendDirection = .RED) →
      (calculateTradingSignal w now).type = .NEUTRAL) ∧
    (calculateTradingSignal w now).timestamp = (lastBar w).timestamp ∧
    (calculateTradingSignal w now).price = (lastBar w).close := by
  have hn : ¬ w.length < 200 := by omega
  have htype : (calculateTradingSignal w now).type =
      (if (calculateSSLChannel w false none).signal = .BUY ∧
          (calculateTrendFusion w none).trendDirection = .GREEN then .BUY
       else if (calculateSSLChannel w false none).signal = .SELL ∧
          (calculateTrendFusion w none).trendDirection = .RED then .SELL
       else .NEUTRAL) := by
    unfold calculateTradingSignal
    rw [if_neg hn]
  have hts : (calculateTradingSignal w now).timestamp = (lastBar w).timestamp := by
    unfold calculateTradingSignal
    rw [if_neg hn]
  have hpr : (calculateTradingSignal w now).price = (lastBar w).close := by
    unfold calculateTradingSignal
    rw [if_neg hn]
  refine ⟨?_, ?_, ?_, hts, hpr⟩ <;> rw [htype]
  · split_ifs with h1 h2 <;> simp_all
  · split_ifs with h1 h2 <;> simp_all
  · split_ifs with h1 h2 <;> simp_all

set_option maxRecDepth 100000 in
unseal Rat.add Rat.mul Rat.inv Rat.sub Rat.ofScientific in
/-- Witness for C1 on the concrete 200-bar rising window. -/
theorem trading_signal_confluence_witness :
    200 ≤ risingWindow200.length ∧
    ((calculateTradingSignal risingWindow200 0).timestamp =
        (lastBar risingWindow200).timestamp ∧
      (calculateTradingSignal risingWindow200 0).price = (lastBar risingWindow200).close) :=
  ⟨by decide, ⟨(trading_signal_confluence risingWindow200 0 (by decide)).2.2.2.1,
    (trading_signal_confluence risingWindow200 0 (by decide)).2.2.2.2⟩⟩

set_option maxRecDepth 100000 in
unseal Rat.add Rat.mul Rat.inv Rat.sub Rat.ofScientific in
/-- C2: on a window of fewer than 200 bars the combinator returns NEUTRAL
with price the last close (or 0 when the window is empty), regardless of the
indicators; and 200 bars is the minimum window length at which a non-NEUTRAL
signal can be produced (witnessed by a concrete 200-bar window whose signal
is not NEUTRAL). -/
theorem short_window_neutral_and_minimality :
    (∀ (w : List PriceData) (now : ℤ), w.length < 200 →
      (calculateTradingSignal w now).type = .NEUTRAL ∧
      (calculateTradingSignal w now).price =
        (if 0 < w.length then (lastBar w).close else 0)) ∧
    (∃ w : List PriceData, w.length = 200 ∧
      (calculateTradingSignal w 0).type ≠ .NEUTRAL) := by
  constructor
  · intro w now h
    unfold calculateTradingSignal
    rw [if_pos h]
    exact ⟨rfl, rfl⟩
  · exact ⟨risingWindow200, by decide, by decide⟩

/-- Witness for C2's universally quantified part at concrete short windows. -/
theorem short_window_neutral_and_minimality_witness :
    ((calculateTradingSignal [] 0).type = .NEUTRAL ∧
      (calculateTradingSignal [] 0).price =
        (if 0 < ([] : List PriceData).length then (lastBar []).close else 0)) ∧
    (calculateTradingSignal [defaultBar] 5).type = .NEUTRAL :=
  ⟨short_window_neutral_and_minimality.1 [] 0 (by decide),
   (short_window_neutral_and_minimality.1 [defaultBar] 5 (by decide)).1⟩

theorem ema_fold_const (k v : ℚ) :
    ∀ m : ℕ, List.foldl (fun ema value => value * k + ema * (1 - k)) v
      (List.replicate m v) = v := by
  intro m
  induction m with
  | zero => rfl
  | succ m ih =>
    rw [List.replicate_succ, List.foldl_cons]
    have hstep : v * k + v * (1 - k) = v := by ring
    rw [hstep]
    exact ih

unseal Rat.add Rat.mul Rat.inv Rat.sub Rat.ofScientific in
/-- C6 counterexample: with period 5, the constant sequence `[7, 7]` (two
copies, so length at least 2) is shorter than the period, and `calculateMA`
returns the insufficient-data sentinel 0, not the constant value 7.  The
claim's "regardless of the sequence's length" therefore fails. -/
theorem ema_constant_counterexample :
    calculateMA (List.replicate 2 (7 : ℚ)) 5 .EMA = 0 ∧ (0 : ℚ) ≠ 7 := by
  exact ⟨by decide, by decide⟩

/-- C6 amended: for every period `p ≥ 1` and constant sequence of `n ≥ p`
copies of `v` (so that the sequence is not shorter than the period), the EMA
moving average equals `v` exactly; below `p` elements the sentinel 0 is
returned instead. -/
theorem ema_constant_amended (p n : ℕ) (v : ℚ) (hp : 1 ≤ p) (hn : p ≤ n) :
    calculateMA (List.replicate n v) p .EMA = v := by
  have hlen : (List.replicate n v).length = n := List.length_replicate n v
  have hnlt : ¬ (List.replicate n v).length < p := by omega
  unfold calculateMA
  rw [if_neg hnlt]
  have hhead : (List.replicate n v).headD 0 = v := by
    cases n with
    | zero => omega
    | succ m => rw [List.replicate_succ]; rfl
  have htail : (List.replicate n v).tail = List.replicate (n - 1) v := by
    cases n with
    | zero => omega
    | succ m => rw [List.replicate_succ]; rfl
  dsimp only
  rw [hhead, htail]
  exact ema_fold_const _ v (n - 1)

unseal Rat.add Rat.mul Rat.inv Rat.sub Rat.ofScientific in
/-- Witness for the amended C6 at concrete inputs. -/
theorem ema_constant_amended_witness :
    1 ≤ 2 ∧ 2 ≤ 3 ∧ calculateMA (List.replicate 3 (5 : ℚ)) 2 .EMA = 5 :=
  ⟨by decide, by decide, ema_constant_amended 2 3 5 (by decide) (by decide)⟩

theorem rsiInit_nonneg (cs : List ℚ) :
    ∀ acc : ℚ × ℚ, 0 ≤ acc.1 → 0 ≤ acc.2 →
      0 ≤ (cs.foldl rsiInitStep acc).1 ∧ 0 ≤ (cs.foldl rsiInitStep acc).2 := by
  induction cs with
  | nil => exact fun acc h1 h2 => ⟨h1, h2⟩
  | cons c cs ih =>
    intro acc h1 h2
    rw [List.foldl_cons]
    apply ih
    · unfold rsiInitStep
      split_ifs with hc
      · dsimp only
        linarith
      · exact h1
    · unfold rsiInitStep
      split_ifs with hc
      · exact h2
      · dsimp only
        exact add_nonneg h2 (abs_nonneg c)

theorem rsiSmooth_nonneg (length : ℕ) (hl : 1 ≤ length) (cs : List ℚ) :
    ∀ acc : ℚ × ℚ, 0 ≤ acc.1 → 0 ≤ acc.2 →
      0 ≤ (cs.foldl (rsiSmoothStep length) acc).1 ∧
      0 ≤ (cs.foldl (rsiSmoothStep length) acc).2 := by
  have hl1 : (0 : ℚ) ≤ (length : ℚ) - 1 := by
    have : (1 : ℚ) ≤ (length : ℚ) := by exact_mod_cast hl
    linarith
  have hlq : (0 : ℚ) ≤ (length : ℚ) := by positivity
  induction cs with
  | nil => exact fun acc h1 h2 => ⟨h1, h2⟩
  | cons c cs ih =>
    intro acc h1 h2
    rw [List.foldl_cons]
    apply ih
    · unfold rsiSmoothStep
      split_ifs with hc
      · dsimp only
        exact div_nonneg (add_nonneg (mul_nonneg h1 hl1) hc.le) hlq
      · dsimp only
        exact div_nonneg (mul_nonneg h1 hl1) hlq
    · unfold rsiSmoothStep
      split_ifs with hc
      · dsimp only
        exact div_nonneg (mul_nonneg h2 hl1) hlq
      · dsimp only
        exact div_nonneg (add_nonneg (mul_nonneg h2 hl1) (abs_nonneg c)) hlq

theorem rsiAverages_nonneg (prices : List ℚ) (length : ℕ) (hl : 1 ≤ length) :
    0 ≤ (rsiAverages prices length).1 ∧ 0 ≤ (rsiAverages prices length).2 := by
  unfold rsiAverages
  dsimp only
  have hinit := rsiInit_nonneg ((rsiChanges prices).take length) (0, 0) le_rfl le_rfl
  have hlq : (0 : ℚ) ≤ (length : ℚ) := by positivity
  exact rsiSmooth_nonneg length hl ((rsiChanges prices).drop length) _
    (div_nonneg hinit.1 hlq) (div_nonneg hinit.2 hlq)

unseal Rat.add Rat.mul Rat.inv Rat.sub Rat.ofScientific in
/-- C5 counterexample: on the constant sequence of fifteen copies of 5 with
length 14 (enough data), every price delta is zero, so both smoothed
averages are zero and the source computes `rs = 0/0 = NaN`, which propagates
through `100 - 100/(1 + rs)`: the result is NaN (`none`), which is neither a
rational in `[0, 100]` nor the saturation value 100. -/
theorem rsi_range_counterexample :
    calculateRSI (List.replicate 15 (5 : ℚ)) 14 = none ∧
    ¬ ∃ r : ℚ, calculateRSI (List.replicate 15 (5 : ℚ)) 14 = some r ∧
      0 ≤ r ∧ r ≤ 100 := by
  have h : calculateRSI (List.replicate 15 (5 : ℚ)) 14 = none := by decide
  refine ⟨h, ?_⟩
  rintro ⟨r, hr, -, -⟩
  rw [h] at hr
  exact Option.noConfusion hr

/-- C5 amended: for every sequence and positive length, whenever
`calculateRSI` returns a numeric (non-NaN) value, that value lies in
`[0, 100]`; on sufficient data with final smoothed `avgLoss = 0` the result
saturates to 100 when `avgGain ≠ 0` (the `x/0 = +Infinity` case) and is NaN
(`none`) when `avgGain = 0` as well (the `0/0` case, i.e. constant
prices). -/
theorem rsi_range_amended (prices : List ℚ) (length : ℕ) (hl : 1 ≤ length) :
    (∀ r : ℚ, calculateRSI prices length = some r → 0 ≤ r ∧ r ≤ 100) ∧
    (¬ prices.length < length + 1 →
      ((rsiAverages prices length).2 = 0 → (rsiAverages prices length).1 = 0 →
        calculateRSI prices length = none) ∧
      ((rsiAverages prices length).2 = 0 → (rsiAverages prices length).1 ≠ 0 →
        calculateRSI prices length = some 100)) := by
  have hg := (rsiAverages_nonneg prices length hl).1
  have hlo := (rsiAverages_nonneg prices length hl).2
  constructor
  · intro r hr
    unfold calculateRSI at hr
    split_ifs at hr with hshort
    · obtain rfl : (50 : ℚ) = r := Option.some.inj hr
      norm_num
    · unfold rsiFinal at hr
      split_ifs at hr with hz hgz
      · obtain rfl : (100 : ℚ) = r := Option.some.inj hr
        norm_num
      · have hlpos : 0 < (rsiAverages prices length).2 := lt_of_le_of_ne hlo (Ne.symm hz)
        have hrs : 0 ≤ (rsiAverages prices length).1 / (rsiAverages prices length).2 :=
          div_nonneg hg hlo
        have h1 : (0 : ℚ) <
            1 + (rsiAverages prices length).1 / (rsiAverages prices length).2 := by
          linarith
        have hle : 100 / (1 + (rsiAverages prices length).1 /
            (rsiAverages prices length).2) ≤ 100 :=
          div_le_self (by norm_num) (by linarith)
        have hge : 0 < 100 / (1 + (rsiAverages prices length).1 /
            (rsiAverages prices length).2) :=
          div_pos (by norm_num) h1
        obtain rfl : 100 - 100 / (1 + (rsiAverages prices length).1 /
            (rsiAverages prices length).2) = r := Option.some.inj hr
        constructor <;> linarith
  · intro hlong
    constructor
    · intro hz hgz
      unfold calculateRSI
      rw [if_neg hlong]
      unfold rsiFinal
      rw [if_pos hz, if_pos hgz]
    · intro hz hgz
      unfold calculateRSI
      rw [if_neg hlong]
      unfold rsiFinal
      rw [if_pos hz, if_neg hgz]

unseal Rat.add Rat.mul Rat.inv Rat.sub Rat.ofScientific in
/-- Witness for the amended C5: a strictly rising sequence has zero average
loss and positive average gain, and the RSI saturates to exactly 100. -/
theorem rsi_range_amended_witness :
    1 ≤ 2 ∧ calculateRSI [1, 2, 3] 2 = some 100 :=
  ⟨by decide,
   ((rsi_range_amended [1, 2, 3] 2 (by decide)).2 (by decide)).2 (by decide) (by decide)⟩

theorem calculateSSLChannel_congr (w : List PriceData) (wicks : Bool)
    {s1 s2 : Option SSLSettings} (hp : sslPeriod s1 = sslPeriod s2)
    (ht : sslMaType s1 = sslMaType s2) :
    calculateSSLChannel w wicks s1 = calculateSSLChannel w wicks s2 := by
  unfold calculateSSLChannel sslHlvOf sslMa1 sslMa2 sslRecent
  rw [hp, ht]

theorem calculateTrendFusion_congr (w : List PriceData)
    {s1 s2 : Option TrendFusionSettings}
    (h1 : tfShortPeriod s1 = tfShortPeriod s2)
    (h2 : tfLongPeriod s1 = tfLongPeriod s2)
    (h3 : tfRsiLength s1 = tfRsiLength s2)
    (h4 : tfTopLevel s1 = tfTopLevel s2)
    (h5 : tfBottomLevel s1 = tfBottomLevel s2) :
    calculateTrendFusion w s1 = calculateTrendFusion w s2 := by
  unfold calculateTrendFusion
  rw [h1, h2, h3, h4, h5]

/-- C10: a configuration option explicitly set to 0 behaves exactly like an
absent option, because `0 || default` yields the default: SSLChannel with
`maPeriod = 0` equals SSLChannel with `maPeriod = 200` and with the option
omitted; TrendFusion with any one of its five options set to 0 equals
TrendFusion with that option omitted and with the corresponding default
(14, 50, 14, 60, 40) supplied explicitly. -/
theorem zero_settings_are_defaults :
    (∀ (w : List PriceData) (wicks : Bool) (mt : Option MAType),
      calculateSSLChannel w wicks (some ⟨some 0, mt⟩) =
        calculateSSLChannel w wicks (some ⟨some 200, mt⟩) ∧
      calculateSSLChannel w wicks (some ⟨some 0, mt⟩) =
        calculateSSLChannel w wicks (some ⟨none, mt⟩)) ∧
    (∀ (w : List PriceData) (s : TrendFusionSettings),
      (s.shortEMAPeriod = some 0 →
        calculateTrendFusion w (some s) =
          calculateTrendFusion w (some { s with shortEMAPeriod := none }) ∧
        calculateTrendFusion w (some s) =
          calculateTrendFusion w (some { s with shortEMAPeriod := some 14 })) ∧
      (s.longEMAPeriod = some 0 →
        calculateTrendFusion w (some s) =
          calculateTrendFusion w (some { s with longEMAPeriod := none }) ∧
        calculateTrendFusion w (some s) =
          calculateTrendFusion w (some { s with longEMAPeriod := some 50 })) ∧
      (s.rsiPeriod = some 0 →
        calculateTrendFusion w (some s) =
          calculateTrendFusion w (some { s with rsiPeriod := none }) ∧
        calculateTrendFusion w (some s) =
          calculateTrendFusion w (some { s with rsiPeriod := some 14 })) ∧
      (s.topLevel = some 0 →
        calculateTrendFusion w (some s) =
          calculateTrendFusion w (some { s with topLevel := none }) ∧
        calculateTrendFusion w (some s) =
          calculateTrendFusion w (some { s with topLevel := some 60 })) ∧
      (s.bottomLevel = some 0 →
        calculateTrendFusion w (some s) =
          calculateTrendFusion w (some { s with bottomLevel := none }) ∧
        calculateTrendFusion w (some s) =
          calculateTrendFusion w (some { s with bottomLevel := some 40 }))) := by
  constructor
  · intro w wicks mt
    constructor
    · exact calculateSSLChannel_congr w wicks rfl rfl
    · exact calculateSSLChannel_congr w wicks rfl rfl
  · intro w s
    refine ⟨fun h => ⟨?_, ?_⟩, fun h => ⟨?_, ?_⟩, fun h => ⟨?_, ?_⟩,
      fun h => ⟨?_, ?_⟩, fun h => ⟨?_, ?_⟩⟩ <;>
      apply calculateTrendFusion_congr <;>
      simp [tfShortPeriod, tfLongPeriod, tfRsiLength, tfTopLevel, tfBottomLevel,
        jsOrNat, jsOrQ, h]

/-- Witness for C10 at concrete inputs. -/
theorem zero_settings_are_defaults_witness :
    (calculateSSLChannel [] false (some ⟨some 0, none⟩) =
      calculateSSLChannel [] false (some ⟨some 200, none⟩)) ∧
    (calculateTrendFusion [] (some ⟨some 0, none, none, none, none⟩) =
      calculateTrendFusion [] (some ⟨some 14, none, none, none, none⟩)) :=
  ⟨(zero_settings_are_defaults.1 [] false none).1,
   ((zero_settings_are_defaults.2 [] ⟨some 0, none, none, none, none⟩).1 rfl).2⟩

theorem sslHlv_cases (recentData : List PriceData) (wicks : Bool) (ma1 ma2 : ℚ) :
    sslHlv recentData wicks ma1 ma2 = 1 ∨ sslHlv recentData wicks ma1 ma2 = -1 ∨
    sslHlv recentData wicks ma1 ma2 = 0 := by
  unfold sslHlv
  dsimp only
  split_ifs <;> simp

theorem sslHlvOf_cases (w : List PriceData) (wicks : Bool) (s : Option SSLSettings) :
    sslHlvOf w wicks s = 1 ∨ sslHlvOf w wicks s = -1 ∨ sslHlvOf w wicks s = 0 := by
  unfold sslHlvOf
  split
  · right; right; rfl
  · exact sslHlv_cases _ wicks _ _

theorem calculateSSLChannel_fields (w : List PriceData) (wicks : Bool)
    (s : Option SSLSettings) (h : ¬ w.length < sslPeriod s) :
    (calculateSSLChannel w wicks s).sslUp =
      (if sslHlvOf w wicks s < 0 then sslMa2 w s else sslMa1 w s) ∧
    (calculateSSLChannel w wicks s).sslDown =
      (if sslHlvOf w wicks s < 0 then sslMa1 w s else sslMa2 w s) ∧
    (calculateSSLChannel w wicks s).signal =
      (if sslHlvOf w wicks s = 1 then .BUY
       else if sslHlvOf w wicks s = -1 then .SELL else .NEUTRAL) := by
  unfold calculateSSLChannel sslHlvOf
  dsimp only
  rw [if_neg h]
  by_cases h2 : 1 < (sslRecent w s).length
  · simp only [if_pos h2, if_neg h]
    exact ⟨trivial, trivial, trivial⟩
  · simp only [if_neg h2, if_neg h]
    exact ⟨trivial, trivial, trivial⟩

/-- C3: on a window of at least `period` bars the SSL directional state is
+1 when the last bar's comparison price (high if wicks else close) exceeds
`ma1`, else -1 when its low comparison price (low if wicks else close) is
below `ma2`, else re-derived from the same two comparisons on the
second-to-last bar (which exists when the period is at least 2), and 0 if
neither resolves; `state = -1` gives `sslUp = ma2, sslDown = ma1`, any other
state gives `sslUp = ma1, sslDown = ma2`; and the signal is BUY at state +1,
SELL at state -1, NEUTRAL otherwise. -/
theorem ssl_state_bounds_signal (w : List PriceData) (wicks : Bool)
    (s : Option SSLSettings) (h : sslPeriod s ≤ w.length) :
    ((calculateSSLChannel w wicks s).hlv =
      (if (if wicks then (lastBar (sslRecent w s)).high
           else (lastBar (sslRecent w s)).close) > sslMa1 w s then 1
       else if (if wicks then (lastBar (sslRecent w s)).low
           else (lastBar (sslRecent w s)).close) < sslMa2 w s then -1
       else if 1 < sslPeriod s then
         (if (if wicks then ((sslRecent w s).getD ((sslRecent w s).length - 2) defaultBar).high
              else ((sslRecent w s).getD ((sslRecent w s).length - 2) defaultBar).close) >
             sslMa1 w s then 1
          else if (if wicks then ((sslRecent w s).getD ((sslRecent w s).length - 2) defaultBar).low
              else ((sslRecent w s).getD ((sslRecent w s).length - 2) defaultBar).close) <
             sslMa2 w s then -1
          else 0)
       else 0)) ∧
    ((calculateSSLChannel w wicks s).hlv = -1 →
      (calculateSSLChannel w wicks s).sslUp = sslMa2 w s ∧
      (calculateSSLChannel w wicks s).sslDown = sslMa1 w s) ∧
    ((calculateSSLChannel w wicks s).hlv ≠ -1 →
      (calculateSSLChannel w wicks s).sslUp = sslMa1 w s ∧
      (calculateSSLChannel w wicks s).sslDown = sslMa2 w s) ∧
    ((calculateSSLChannel w wicks s).hlv = 1 →
      (calculateSSLChannel w wicks s).signal = .BUY) ∧
    ((calculateSSLChannel w wicks s).hlv = -1 →
      (calculateSSLChannel w wicks s).signal = .SELL) ∧
    ((calculateSSLChannel w wicks s).hlv ≠ 1 →
      (calculateSSLChannel w wicks s).hlv ≠ -1 →
      (calculateSSLChannel w wicks s).signal = .NEUTRAL) := by
  have hn : ¬ w.length < sslPeriod s := by omega
  have hrl : (sslRecent w s).length = sslPeriod s := sslRecent_length h
  have hhlv := calculateSSLChannel_hlv w wicks s
  have hf := calculateSSLChannel_fields w wicks s hn
  refine ⟨?_, ?_, ?_, ?_, ?_, ?_⟩
  · rw [hhlv]
    unfold sslHlvOf
    rw [if_neg hn]
    unfold sslHlv lastBar
    dsimp only
    rw [hrl]
  · intro hx
    rw [hhlv] at hx
    rw [hf.1, hf.2.1, hx]
    norm_num
  · intro hx
    rw [hhlv] at hx
    have hneg : ¬ sslHlvOf w wicks s < 0 := by
      rcases sslHlvOf_cases w wicks s with h1 | h1 | h1 <;> omega
    rw [hf.1, hf.2.1, if_neg hneg, if_neg hneg]
    exact ⟨rfl, rfl⟩
  · intro hx
    rw [hhlv] at hx
    rw [hf.2.2, hx]
    norm_num
  · intro hx
    rw [hhlv] at hx
    rw [hf.2.2, hx]
    norm_num
  · intro hx1 hx2
    rw [hhlv] at hx1 hx2
    rw [hf.2.2, if_neg hx1, if_neg hx2]

unseal Rat.add Rat.mul Rat.inv Rat.sub Rat.ofScientific in
/-- Witness for C3 on a concrete 3-bar window with period 2. -/
theorem ssl_state_bounds_signal_witness :
    sslPeriod (some ⟨some 2, none⟩) ≤ (risingWindow200.take 3).length ∧
    ((calculateSSLChannel (risingWindow200.take 3) false (some ⟨some 2, none⟩)).hlv = 1 →
      (calculateSSLChannel (risingWindow200.take 3) false (some ⟨some 2, none⟩)).signal =
        .BUY) :=
  ⟨by decide,
   (ssl_state_bounds_signal (risingWindow200.take 3) false (some ⟨some 2, none⟩)
      (by decide)).2.2.2.1⟩

theorem jsLe_eq_true {x : Option ℚ} {y : ℚ} (h : jsLe x y = true) :
    ∃ v, x = some v ∧ v ≤ y := by
  cases x with
  | none => simp [jsLe] at h
  | some v =>
    refine ⟨v, rfl, ?_⟩
    simpa [jsLe] using h

theorem jsGe_eq_true {x : Option ℚ} {y : ℚ} (h : jsGe x y = true) :
    ∃ v, x = some v ∧ y ≤ v := by
  cases x with
  | none => simp [jsGe] at h
  | some v =>
    refine ⟨v, rfl, ?_⟩
    simpa [jsGe] using h

theorem jsLt_eq_true {x : Option ℚ} {y : ℚ} (h : jsLt x y = true) :
    ∃ v, x = some v ∧ v < y := by
  cases x with
  | none => simp [jsLt] at h
  | some v =>
    refine ⟨v, rfl, ?_⟩
    simpa [jsLt] using h

theorem jsGt_eq_true {x : Option ℚ} {y : ℚ} (h : jsGt x y = true) :
    ∃ v, x = some v ∧ y < v := by
  cases x with
  | none => simp [jsGt] at h
  | some v =>
    refine ⟨v, rfl, ?_⟩
    simpa [jsGt] using h

/-- The BULLISH and BEARISH crossover conditions can never hold together:
they would force `prevRsi ≤ topLevel < rsiValue < bottomLevel ≤ prevRsi`. -/
theorem bias_conds_disjoint {p v : Option ℚ} {tl bl : ℚ}
    (h1 : jsLe p tl = true) (h2 : jsGt v tl = true)
    (h3 : jsGe p bl = true) (h4 : jsLt v bl = true) : False := by
  obtain ⟨pv, hp, hple⟩ := jsLe_eq_true h1
  obtain ⟨vv, hv, hvgt⟩ := jsGt_eq_true h2
  obtain ⟨pv2, hp2, hpge⟩ := jsGe_eq_true h3
  obtain ⟨vv2, hv2, hvlt⟩ := jsLt_eq_true h4
  rw [hp] at hp2
  rw [hv] at hv2
  obtain rfl := Option.some.inj hp2
  obtain rfl := Option.some.inj hv2
  linarith

theorem calculateTrendFusion_bias (w : List PriceData) (s : Option TrendFusionSettings)
    (hn : ¬ w.length < max (tfShortPeriod s) (max (tfLongPeriod s) (tfRsiLength s))) :
    ((calculateTrendFusion w s).rsiBias, (calculateTrendFusion w s).rsiBiasLine) =
      (if 1 < w.length then
        (if jsLe (calculateRSI ((w.map (·.close)).dropLast) (tfRsiLength s)) (tfTopLevel s) &&
            jsGt (calculateRSI (w.map (·.close)) (tfRsiLength s)) (tfTopLevel s) then
           (RsiBias.BULLISH, tfBottomLevel s)
         else if jsGe (calculateRSI ((w.map (·.close)).dropLast) (tfRsiLength s))
              (tfBottomLevel s) &&
            jsLt (calculateRSI (w.map (·.close)) (tfRsiLength s)) (tfBottomLevel s) then
           (RsiBias.BEARISH, tfTopLevel s)
         else (RsiBias.NEUTRAL, 50))
       else (RsiBias.NEUTRAL, 50)) := by
  unfold calculateTrendFusion
  dsimp only
  rw [if_neg hn]
  by_cases h2 : 1 < w.length
  · simp only [if_pos h2]
    split_ifs <;> rfl
  · simp only [if_neg h2]

/-- C8: on every window long enough for TrendFusion to compute, the RSI bias
is BULLISH with reference level `bottomLevel` exactly when the previous RSI
(over the closes with the last element removed) compares `≤ topLevel` and
the current RSI compares `> topLevel`; BEARISH with reference level
`topLevel` exactly when the previous RSI compares `≥ bottomLevel` and the
current RSI compares `< bottomLevel`; and otherwise NEUTRAL with reference
level 50.  (Comparisons follow JavaScript: false when the RSI is NaN.) -/
theorem tf_rsi_bias_crossover (w : List PriceData) (s : Option TrendFusionSettings)
    (h : max (tfShortPeriod s) (max (tfLongPeriod s) (tfRsiLength s)) ≤ w.length) :
    ((calculateTrendFusion w s).rsiBias = .BULLISH ↔
      (jsLe (calculateRSI ((w.map (·.close)).dropLast) (tfRsiLength s)) (tfTopLevel s) = true ∧
       jsGt (calculateRSI (w.map (·.close)) (tfRsiLength s)) (tfTopLevel s) = true)) ∧
    ((calculateTrendFusion w s).rsiBias = .BULLISH →
      (calculateTrendFusion w s).rsiBiasLine = tfBottomLevel s) ∧
    ((calculateTrendFusion w s).rsiBias = .BEARISH ↔
      (jsGe (calculateRSI ((w.map (·.close)).dropLast) (tfRsiLength s)) (tfBottomLevel s) = true ∧
       jsLt (calculateRSI (w.map (·.close)) (tfRsiLength s)) (tfBottomLevel s) = true)) ∧
    ((calculateTrendFusion w s).rsiBias = .BEARISH →
      (calculateTrendFusion w s).rsiBiasLine = tfTopLevel s) ∧
    ((calculateTrendFusion w s).rsiBias = .NEUTRAL →
      (calculateTrendFusion w s).rsiBiasLine = 50) := by
  have hn : ¬ w.length < max (tfShortPeriod s) (max (tfLongPeriod s) (tfRsiLength s)) := by
    omega
  have hpair := calculateTrendFusion_bias w s hn
  have hrlpos : 0 < tfRsiLength s := jsOrNat_pos _ 14 (by omega)
  by_cases h2 : 1 < w.length
  · rw [if_pos h2] at hpair
    by_cases hc1 : (jsLe (calculateRSI ((w.map (·.close)).dropLast) (tfRsiLength s))
          (tfTopLevel s) &&
        jsGt (calculateRSI (w.map (·.close)) (tfRsiLength s)) (tfTopLevel s)) = true
    · rw [if_pos hc1] at hpair
      have hb : (calculateTrendFusion w s).rsiBias = .BULLISH := congrArg Prod.fst hpair
      have hl : (calculateTrendFusion w s).rsiBiasLine = tfBottomLevel s :=
        congrArg Prod.snd hpair
      rw [Bool.and_eq_true] at hc1
      refine ⟨?_, fun _ => hl, ?_, ?_, ?_⟩
      · simp [hb, hc1]
      · rw [hb]
        constructor
        · intro hcontr
          exact absurd hcontr (by simp)
        · rintro ⟨h3, h4⟩
          exact absurd (bias_conds_disjoint hc1.1 hc1.2 h3 h4) (by simp)
      · intro hcontr
        rw [hb] at hcontr
        exact absurd hcontr (by simp)
      · intro hcontr
        rw [hb] at hcontr
        exact absurd hcontr (by simp)
    · rw [if_neg hc1] at hpair
      by_cases hc2 : (jsGe (calculateRSI ((w.map (·.close)).dropLast) (tfRsiLength s))
            (tfBottomLevel s) &&
          jsLt (calculateRSI (w.map (·.close)) (tfRsiLength s)) (tfBottomLevel s)) = true
      · rw [if_pos hc2] at hpair
        have hb : (calculateTrendFusion w s).rsiBias = .BEARISH := congrArg Prod.fst hpair
        have hl : (calculateTrendFusion w s).rsiBiasLine = tfTopLevel s :=
          congrArg Prod.snd hpair
        rw [Bool.and_eq_true] at hc2
        refine ⟨?_, ?_, ?_, fun _ => hl, ?_⟩
        · rw [hb]
          constructor
          · intro hcontr
            exact absurd hcontr (by simp)
          · rintro ⟨h3, h4⟩
            rw [Bool.and_eq_true] at hc1
            exact absurd (And.intro h3 h4) hc1
        · intro hcontr
          rw [hb] at hcontr
          exact absurd hcontr (by simp)
        · simp [hb, hc2]
        · intro hcontr
          rw [hb] at hcontr
          exact absurd hcontr (by simp)
      · rw [if_neg hc2] at hpair
        have hb : (calculateTrendFusion w s).rsiBias = .NEUTRAL := congrArg Prod.fst hpair
        have hl : (calculateTrendFusion w s).rsiBiasLine = 50 := congrArg Prod.snd hpair
        rw [Bool.and_eq_true] at hc1 hc2
        refine ⟨?_, ?_, ?_, ?_, fun _ => hl⟩
        · rw [hb]
          constructor
          · intro hcontr
            exact absurd hcontr (by simp)
          · intro hcs
            exact absurd hcs hc1
        · intro hcontr
          rw [hb] at hcontr
          exact absurd hcontr (by simp)
        · rw [hb]
          constructor
          · intro hcontr
            exact absurd hcontr (by simp)
          · intro hcs
            exact absurd hcs hc2
        · intro hcontr
          rw [hb] at hcontr
          exact absurd hcontr (by simp)
  · rw [if_neg h2] at hpair
    have hb : (calculateTrendFusion w s).rsiBias = .NEUTRAL := congrArg Prod.fst hpair
    have hl : (calculateTrendFusion w s).rsiBiasLine = 50 := congrArg Prod.snd hpair
    have hw1 : w.length = 1 := by
      have : 0 < tfShortPeriod s := jsOrNat_pos _ 14 (by omega)
      omega
    have hval : calculateRSI (w.map (·.close)) (tfRsiLength s) = some 50 := by
      unfold calculateRSI
      rw [if_pos (by rw [List.length_map, hw1]; omega)]
    have hprev : calculateRSI ((w.map (·.close)).dropLast) (tfRsiLength s) = some 50 := by
      unfold calculateRSI
      rw [if_pos (by rw [List.length_dropLast, List.length_map, hw1]; omega)]
    refine ⟨?_, ?_, ?_, ?_, fun _ => hl⟩
    · rw [hb, hval, hprev]
      constructor
      · intro hcontr
        exact absurd hcontr (by simp)
      · rintro ⟨h3, h4⟩
        obtain ⟨pv, hp, hple⟩ := jsLe_eq_true h3
        obtain ⟨vv, hv, hvgt⟩ := jsGt_eq_true h4
        obtain rfl := Option.some.inj hp
        obtain rfl := Option.some.inj hv
        linarith
    · intro hcontr
      rw [hb] at hcontr
      exact absurd hcontr (by simp)
    · rw [hb, hval, hprev]
      constructor
      · intro hcontr
        exact absurd hcontr (by simp)
      · rintro ⟨h3, h4⟩
        obtain ⟨pv, hp, hpge⟩ := jsGe_eq_true h3
        obtain ⟨vv, hv, hvlt⟩ := jsLt_eq_true h4
        obtain rfl := Option.some.inj hp
        obtain rfl := Option.some.inj hv
        linarith
    · intro hcontr
      rw [hb] at hcontr
      exact absurd hcontr (by simp)

unseal Rat.add Rat.mul Rat.inv Rat.sub Rat.ofScientific in
/-- Witness for C8 on a concrete 3-bar window with all periods 2. -/
theorem tf_rsi_bias_crossover_witness :
    max (tfShortPeriod (some ⟨some 2, some 2, some 2, none, none⟩))
      (max (tfLongPeriod (some ⟨some 2, some 2, some 2, none, none⟩))
        (tfRsiLength (some ⟨some 2, some 2, some 2, none, none⟩))) ≤
      (risingWindow200.take 3).length ∧
    ((calculateTrendFusion (risingWindow200.take 3)
        (some ⟨some 2, some 2, some 2, none, none⟩)).rsiBias = .BULLISH →
      (calculateTrendFusion (risingWindow200.take 3)
        (some ⟨some 2, some 2, some 2, none, none⟩)).rsiBiasLine =
        tfBottomLevel (some ⟨some 2, some 2, some 2, none, none⟩)) :=
  ⟨by decide,
   (tf_rsi_bias_crossover (risingWindow200.take 3)
      (some ⟨some 2, some 2, some 2, none, none⟩) (by decide)).2.1⟩

theorem dropLast_takeLast {α : Type*} (n : ℕ) (l : List α) :
    (takeLast (n + 1) l).dropLast = takeLast n l.dropLast := by
  unfold takeLast
  simp only [List.dropLast_eq_take, List.length_drop, List.length_take, List.take_drop]
  congr 1
  · omega
  · congr 1
    omega

theorem takeLast_one {l : List PriceData} (h : l ≠ []) : takeLast 1 l = [lastBar l] := by
  unfold lastBar
  obtain h2 | ⟨L, b, rfl⟩ := List.eq_nil_or_concat l
  · exact absurd h2 h
  · unfold takeLast
    simp [List.concat_eq_append]

theorem lastBar_mem {l : List PriceData} (h : l ≠ []) : lastBar l ∈ l := by
  have hlen : l.length - 1 < l.length := by
    cases l with
    | nil => exact absurd rfl h
    | cons a as => simp
  unfold lastBar
  rw [List.getD_eq_getElem l defaultBar hlen]
  exact List.getElem_mem hlen

theorem calculateMA_singleton (x : ℚ) (ty : MAType) : calculateMA [x] 1 ty = x := by
  cases ty with
  | SMA => simp [calculateMA, takeLast]
  | EMA => simp [calculateMA]

theorem sslHlvOf_congr {a b : List PriceData} {wicks : Bool} {s : Option SSLSettings}
    (ha : ¬ a.length < sslPeriod s) (hb : ¬ b.length < sslPeriod s)
    (he : takeLast (sslPeriod s) a = takeLast (sslPeriod s) b) :
    sslHlvOf a wicks s = sslHlvOf b wicks s := by
  unfold sslHlvOf sslMa1 sslMa2 sslRecent
  rw [if_neg ha, if_neg hb, he]

theorem calculateSSLChannel_events (w : List PriceData) (wicks : Bool)
    (s : Option SSLSettings) (h : ¬ w.length < sslPeriod s)
    (h2 : 1 < (sslRecent w s).length) :
    (calculateSSLChannel w wicks s).buySignal =
      (sslHlvOf w wicks s == 1 &&
        sslHlvOf ((takeLast (sslPeriod s + 1) w).dropLast) wicks s == -1) ∧
    (calculateSSLChannel w wicks s).sellSignal =
      (!(sslHlvOf w wicks s == 1 &&
          sslHlvOf ((takeLast (sslPeriod s + 1) w).dropLast) wicks s == -1) &&
        (sslHlvOf w wicks s == -1 &&
          sslHlvOf ((takeLast (sslPeriod s + 1) w).dropLast) wicks s == 1)) := by
  have e : sslHlvOf w wicks s =
      sslHlv (sslRecent w s) wicks (sslMa1 w s) (sslMa2 w s) := by
    unfold sslHlvOf
    rw [if_neg h]
  unfold calculateSSLChannel
  dsimp only
  rw [if_neg h]
  simp only [if_pos h2]
  rw [e]
  exact ⟨rfl, rfl⟩

theorem calculateSSLChannel_events_trivial (w : List PriceData) (wicks : Bool)
    (s : Option SSLSettings) (h : ¬ w.length < sslPeriod s)
    (h2 : ¬ 1 < (sslRecent w s).length) :
    (calculateSSLChannel w wicks s).buySignal = false ∧
    (calculateSSLChannel w wicks s).sellSignal = false := by
  unfold calculateSSLChannel
  dsimp only
  rw [if_neg h]
  simp only [if_neg h2]
  exact ⟨trivial, trivial⟩

theorem sslHlv_singleton_zero (x : PriceData) (wicks : Bool)
    (hx : x.low ≤ x.close ∧ x.close ≤ x.high) :
    sslHlv [x] wicks x.high x.low = 0 := by
  unfold sslHlv
  cases wicks <;> simp [not_lt.mpr hx.2, not_lt.mpr hx.1]

theorem sslHlvOf_period_one (w : List PriceData) (wicks : Bool) (s : Option SSLSettings)
    (hp : sslPeriod s = 1) (hlen : 1 ≤ w.length)
    (hlast : (lastBar w).low ≤ (lastBar w).close ∧ (lastBar w).close ≤ (lastBar w).high) :
    sslHlvOf w wicks s = 0 := by
  have hne : w ≠ [] := List.ne_nil_of_length_pos (by omega)
  unfold sslHlvOf sslMa1 sslMa2 sslRecent
  rw [hp, if_neg (by omega), takeLast_one hne]
  simp only [List.map_cons, List.map_nil]
  rw [calculateMA_singleton, calculateMA_singleton]
  exact sslHlv_singleton_zero (lastBar w) wicks hlast

/-- C4: on a window of at least `period` bars (with bars satisfying the
documented `low ≤ close ≤ high` input contract), `buyEvent` holds exactly
when the current directional state is +1 and the state of the SSLChannel
evaluated on the window with its last bar removed is -1, and `sellEvent`
exactly when the current state is -1 and that previous state is +1.  (The
source recomputes the previous state on `slice(-(period+1), -1)`, which
carries the same last `period` bars as the window minus its last bar, so the
two evaluations agree.) -/
theorem ssl_crossover_events (w : List PriceData) (wicks : Bool) (s : Option SSLSettings)
    (hb : ∀ b ∈ w, b.low ≤ b.close ∧ b.close ≤ b.high)
    (h : sslPeriod s ≤ w.length) :
    ((calculateSSLChannel w wicks s).buySignal = true ↔
      (calculateSSLChannel w wicks s).hlv = 1 ∧
      (calculateSSLChannel w.dropLast wicks s).hlv = -1) ∧
    ((calculateSSLChannel w wicks s).sellSignal = true ↔
      (calculateSSLChannel w wicks s).hlv = -1 ∧
      (calculateSSLChannel w.dropLast wicks s).hlv = 1) := by
  have hn : ¬ w.length < sslPeriod s := by omega
  have hppos := sslPeriod_pos s
  have hhlv := calculateSSLChannel_hlv w wicks s
  have hhlvd := calculateSSLChannel_hlv w.dropLast wicks s
  have hprev : sslHlvOf ((takeLast (sslPeriod s + 1) w).dropLast) wicks s =
      sslHlvOf w.dropLast wicks s := by
    rw [dropLast_takeLast]
    by_cases hc : sslPeriod s ≤ w.dropLast.length
    · apply sslHlvOf_congr
      · rw [takeLast_length]
        omega
      · omega
      · have hle : (takeLast (sslPeriod s) w.dropLast).length ≤ sslPeriod s := by
          rw [takeLast_length]
          omega
        rw [takeLast_of_le hle]
    · rw [takeLast_of_le (by omega)]
  by_cases hp2 : 1 < sslPeriod s
  · have h2 : 1 < (sslRecent w s).length := by
      rw [sslRecent_length h]
      omega
    have hev := calculateSSLChannel_events w wicks s hn h2
    rw [hhlv, hhlvd, hev.1, hev.2, hprev]
    constructor
    · simp [Bool.and_eq_true, beq_iff_eq]
    · constructor
      · intro hh
        rw [Bool.and_eq_true] at hh
        have h3 := hh.2
        rw [Bool.and_eq_true, beq_iff_eq, beq_iff_eq] at h3
        exact h3
      · rintro ⟨ha1, hb1⟩
        rw [ha1, hb1]
        decide
  · have hp1 : sslPeriod s = 1 := by omega
    have h2 : ¬ 1 < (sslRecent w s).length := by
      rw [sslRecent_length h]
      omega
    have hev := calculateSSLChannel_events_trivial w wicks s hn h2
    have hne : w ≠ [] := List.ne_nil_of_length_pos (by omega)
    have hz : sslHlvOf w wicks s = 0 :=
      sslHlvOf_period_one w wicks s hp1 (by omega) (hb _ (lastBar_mem hne))
    rw [hhlv, hev.1, hev.2, hz]
    constructor
    · constructor
      · intro hh
        exact absurd hh (by simp)
      · rintro ⟨h1, -⟩
        exact absurd h1 (by norm_num)
    · constructor
      · intro hh
        exact absurd hh (by simp)
      · rintro ⟨h1, -⟩
        exact absurd h1 (by norm_num)

unseal Rat.add Rat.mul Rat.inv Rat.sub Rat.ofScientific in
/-- Witness for C4 on a concrete 3-bar window with period 2. -/
theorem ssl_crossover_events_witness :
    (∀ b ∈ risingWindow200.take 3, b.low ≤ b.close ∧ b.close ≤ b.high) ∧
    sslPeriod (some ⟨some 2, none⟩) ≤ (risingWindow200.take 3).length ∧
    ((calculateSSLChannel (risingWindow200.take 3) false (some ⟨some 2, none⟩)).buySignal =
        true ↔
      (calculateSSLChannel (risingWindow200.take 3) false (some ⟨some 2, none⟩)).hlv = 1 ∧
      (calculateSSLChannel (risingWindow200.take 3).dropLast false
          (some ⟨some 2, none⟩)).hlv = -1) :=
  ⟨by decide, by decide,
   (ssl_crossover_events (risingWindow200.take 3) false (some ⟨some 2, none⟩)
      (by decide) (by decide)).1⟩

theorem findStartIndexGo_spec (data : List PriceData) (target : ℤ)
    (hsort : ∀ i j : ℕ, i ≤ j → j < data.length →
      (data.getD i defaultBar).timestamp ≤ (data.getD j defaultBar).timestamp) :
    ∀ (n : ℕ) (left right : ℤ), (right + 1 - left).toNat = n →
    0 ≤ left → left ≤ (data.length : ℤ) → right < (data.length : ℤ) →
    (∀ i : ℤ, 0 ≤ i → i < left → (data.getD i.toNat defaultBar).timestamp < target) →
    (∀ i : ℤ, right < i → i < (data.length : ℤ) →
      target ≤ (data.getD i.toNat defaultBar).timestamp) →
    (0 ≤ findStartIndexGo data target left right ∧
     findStartIndexGo data target left right ≤ (data.length : ℤ) ∧
     (∀ i : ℤ, 0 ≤ i → i < findStartIndexGo data target left right →
       (data.getD i.toNat defaultBar).timestamp < target) ∧
     (∀ i : ℤ, findStartIndexGo data target left right ≤ i → i < (data.length : ℤ) →
       target ≤ (data.getD i.toNat defaultBar).timestamp)) := by
  intro n
  induction n using Nat.strong_induction_on with
  | _ n ih =>
    intro left right hn h0 hll hrl hinv1 hinv2
    unfold findStartIndexGo
    by_cases hlr : left ≤ right
    · rw [if_pos hlr]
      dsimp only
      by_cases hcmp : target ≤ (data.getD ((left + right) / 2).toNat defaultBar).timestamp
      · rw [if_pos hcmp]
        refine ih (((left + right) / 2 - 1) + 1 - left).toNat (by omega) left
          ((left + right) / 2 - 1) rfl h0 hll (by omega) hinv1 ?_
        intro i h1 h2
        have hmi : ((left + right) / 2).toNat ≤ i.toNat := by omega
        have hil : i.toNat < data.length := by omega
        calc target ≤ (data.getD ((left + right) / 2).toNat defaultBar).timestamp := hcmp
          _ ≤ (data.getD i.toNat defaultBar).timestamp := hsort _ _ hmi hil
      · rw [if_neg hcmp]
        refine ih (right + 1 - ((left + right) / 2 + 1)).toNat (by omega)
          ((left + right) / 2 + 1) right rfl (by omega) (by omega) hrl ?_ hinv2
        intro i h1 h2
        have him : i.toNat ≤ ((left + right) / 2).toNat := by omega
        have hml : ((left + right) / 2).toNat < data.length := by omega
        have hmlt : (data.getD ((left + right) / 2).toNat defaultBar).timestamp < target :=
          not_le.mp hcmp
        calc (data.getD i.toNat defaultBar).timestamp
            ≤ (data.getD ((left + right) / 2).toNat defaultBar).timestamp := hsort _ _ him hml
          _ < target := hmlt
    · rw [if_neg hlr]
      refine ⟨h0, by omega, hinv1, ?_⟩
      intro i h1 h2
      exact hinv2 i (by omega) h2

theorem findStartIndex_spec (data : List PriceData) (target : ℤ)
    (hsort : ∀ i j : ℕ, i ≤ j → j < data.length →
      (data.getD i defaultBar).timestamp ≤ (data.getD j defaultBar).timestamp) :
    0 ≤ findStartIndex data target ∧
    findStartIndex data target ≤ (data.length : ℤ) ∧
    (∀ i : ℤ, 0 ≤ i → i < findStartIndex data target →
      (data.getD i.toNat defaultBar).timestamp < target) ∧
    (∀ i : ℤ, findStartIndex data target ≤ i → i < (data.length : ℤ) →
      target ≤ (data.getD i.toNat defaultBar).timestamp) := by
  unfold findStartIndex
  exact findStartIndexGo_spec data target hsort _ 0 ((data.length : ℤ) - 1) rfl le_rfl
    (by omega) (by omega) (fun i h1 h2 => absurd h2 (by omega))
    (fun i h1 h2 => absurd h2 (by omega))

theorem drop_eq_filter_of_cut (data : List PriceData) (target : ℤ) :
    ∀ k : ℕ, k ≤ data.length →
    (∀ i : ℕ, i < k → (data.getD i defaultBar).timestamp < target) →
    (∀ i : ℕ, k ≤ i → i < data.length → target ≤ (data.getD i defaultBar).timestamp) →
    data.drop k = data.filter (fun b => target ≤ b.timestamp) := by
  induction data with
  | nil => simp
  | cons a l ih =>
    intro k hk h1 h2
    cases k with
    | zero =>
      rw [List.drop_zero]
      symm
      rw [List.filter_eq_self]
      intro b hb
      obtain ⟨i, hi, rfl⟩ := List.mem_iff_getElem.mp hb
      have := h2 i (Nat.zero_le i) hi
      rw [List.getD_eq_getElem _ defaultBar hi] at this
      simpa using this
    | succ m =>
      rw [List.drop_succ_cons, List.filter_cons]
      have ha : ¬ target ≤ a.timestamp := by
        have := h1 0 (Nat.succ_pos m)
        simpa [List.getD_cons_zero] using not_le.mpr this
      rw [if_neg (by simpa using ha)]
      refine ih m (by simpa using hk) ?_ ?_
      · intro i hi
        have := h1 (i + 1) (by omega)
        simpa [List.getD_cons_succ] using this
      · intro i hi1 hi2
        have := h2 (i + 1) (by omega) (by simpa using Nat.succ_lt_succ hi2)
        simpa [List.getD_cons_succ] using this

theorem pairwise_getD_sorted {data : List PriceData}
    (hsort : List.Pairwise (fun a b => a.timestamp ≤ b.timestamp) data) :
    ∀ i j : ℕ, i ≤ j → j < data.length →
      (data.getD i defaultBar).timestamp ≤ (data.getD j defaultBar).timestamp := by
  intro i j hij hj
  rcases eq_or_lt_of_le hij with rfl | hlt
  · exact le_refl _
  · have h := List.pairwise_iff_getElem.mp hsort i j (by omega) hj hlt
    rw [List.getD_eq_getElem data defaultBar (by omega : i < data.length),
      List.getD_eq_getElem data defaultBar hj]
    exact h

theorem drop_findStartIndex_eq_filter (data : List PriceData) (target : ℤ)
    (hsort : List.Pairwise (fun a b => a.timestamp ≤ b.timestamp) data) :
    data.drop (findStartIndex data target).toNat =
      data.filter (fun b => target ≤ b.timestamp) := by
  have hs := findStartIndex_spec data target (pairwise_getD_sorted hsort)
  apply drop_eq_filter_of_cut data target (findStartIndex data target).toNat (by omega)
  · intro i hi
    have := hs.2.2.1 (i : ℤ) (by omega) (by omega)
    simpa using this
  · intro i hi1 hi2
    have := hs.2.2.2 (i : ℤ) (by omega) (by omega)
    simpa using this

/-- C9: on a series with non-decreasing timestamps, every named range token
other than `All` selects, by lower-bound binary search, the contiguous
suffix starting at the first bar whose timestamp is at least the cutoff
(latest timestamp minus the token's duration; for year-to-date, midnight
UTC of January 1 of the latest bar's year), and that suffix consists of
exactly the bars with timestamp at least the cutoff; the token `All`
returns the full series unchanged, length and order preserved. -/
theorem window_selector_spec (data : List PriceData) (tok : TimeRange)
    (hsort : List.Pairwise (fun a b => a.timestamp ≤ b.timestamp) data) :
    processTimeRangeData data .all = data ∧
    (tok ≠ .all →
      processTimeRangeData data tok =
        data.drop (findStartIndex data (cutoffFor tok (lastBar data).timestamp)).toNat ∧
      processTimeRangeData data tok =
        data.filter (fun b => cutoffFor tok (lastBar data).timestamp ≤ b.timestamp)) := by
  constructor
  · unfold processTimeRangeData
    by_cases h0 : data.length = 0
    · rw [if_pos h0]
      exact (List.length_eq_zero.mp h0).symm
    · rw [if_neg h0]
  · intro hne
    by_cases h0 : data.length = 0
    · obtain rfl := List.length_eq_zero.mp h0
      constructor <;> simp [processTimeRangeData, findStartIndex, findStartIndexGo]
    · have hdrop : processTimeRangeData data tok =
          data.drop (findStartIndex data (cutoffFor tok (lastBar data).timestamp)).toNat := by
        unfold processTimeRangeData
        rw [if_neg h0]
        cases tok
        case all => exact absurd rfl hne
        all_goals rfl
      exact ⟨hdrop, hdrop.trans (drop_findStartIndex_eq_filter data _ hsort)⟩

unseal Rat.add Rat.mul Rat.inv Rat.sub Rat.ofScientific in
/-- Witness for C9 on a concrete sorted two-bar series. -/
theorem window_selector_spec_witness :
    List.Pairwise (fun a b : PriceData => a.timestamp ≤ b.timestamp)
      (risingWindow200.take 2) ∧
    processTimeRangeData (risingWindow200.take 2) .all = risingWindow200.take 2 ∧
    processTimeRangeData (risingWindow200.take 2) .oneHour =
      (risingWindow200.take 2).filter
        (fun b =>
          cutoffFor .oneHour (lastBar (risingWindow200.take 2)).timestamp ≤ b.timestamp) :=
  ⟨by decide,
   (window_selector_spec (risingWindow200.take 2) .oneHour (by decide)).1,
   ((window_selector_spec (risingWindow200.take 2) .oneHour (by decide)).2
      (by decide)).2⟩

/-- The literal recursive transcription of calculateSSLChannel agrees with
the non-recursive embedding used throughout this development: the recursive
call's result is only ever read at its `hlv` field, which `sslHlvOf`
computes. -/
theorem calculateSSLChannelRec_eq (wicks : Bool) (s : Option SSLSettings) :
    ∀ (n : ℕ) (w : List PriceData), w.length = n →
      calculateSSLChannelRec w wicks s = calculateSSLChannel w wicks s := by
  intro n
  induction n using Nat.strong_induction_on with
  | _ n ih =>
    intro w hn
    unfold calculateSSLChannelRec calculateSSLChannel
    dsimp only
    by_cases h1 : w.length < sslPeriod s
    · rw [if_pos h1, if_pos h1]
    · rw [if_neg h1, if_neg h1]
      by_cases h2 : 1 < (sslRecent w s).length
      · rw [dif_pos h2, if_pos h2]
        have hlt : ((takeLast (sslPeriod s + 1) w).dropLast).length < n := by
          simp only [takeLast, List.length_dropLast, List.length_drop]
          have hp := sslPeriod_pos s
          omega
        rw [ih _ hlt _ rfl, calculateSSLChannel_hlv]
      · rw [dif_neg h2, if_neg h2]
